import Mathlib

set_option autoImplicit false

/-!
# Verification of the `bob` builder generator

A shallow embedding of the `bob` derive-macro crate (WaDelma/bob) and proofs
about it.  The repository contains two generator versions:

* `src/bob/src/lib.rs` — the current generator ("strategy B" in the spec):
  required fields live in raw, possibly-uninitialized slots inside a
  two-variant enum (`Inner`/`Empty`), guarded by per-field marker type
  parameters (`O` = unset, `I` = set) dispatching `replicate`/`destroy`/
  `expose` through the `MaybeInitialized` trait.
* `src/src/lib.rs` — the older generator ("strategy A"): required fields are
  stored as `Option` slots initialized to `None` and unwrapped at build time.

The embedding has three layers, each translated from the source:

1. a model of the fragment of the `syn` 0.x AST that the generator consults
   (`Ty`, path segments, attribute meta items);
2. the generator's own decision logic (`is_option`, `unwrap_from_option`,
   `collect_most_one`, `get_builder_names`, `get_setter_prefix` — rendered
   here as `get_setter_pfx` for lexical reasons —, `get_validator`,
   `get_derives`) and the *signatures* emitted by `create_builder`: for every
   generated impl we record the builder type's marker arguments
   (`unset` = `O`, `set` = `I`, `free` = an unconstrained type parameter);
3. the run-time semantics of the generated code itself (constructor, required
   setters, `Drop`, `Clone`-independent `Debug`, `build`), with undefined
   behaviour (dropping or reading an uninitialized slot) and panics modelled
   by `Option`/`none`, and generation-time panics modelled by `Except.error`.
-/

/-! ## Model of the used fragment of `syn` 0.x -/

mutual

/-- Model of `syn::Ty`: a type as it appears in a field declaration.  Only the
`Ty::Path` constructor is inspected by the generator; every other `syn`
type constructor behaves like `other`. -/
inductive Ty where
  | path (global : Bool) (segments : List PathSeg)
  | other

/-- Model of `syn::PathSegment`: one segment of a path, an identifier plus its
parameter list. -/
inductive PathSeg where
  | mk (ident : String) (parameters : PathParams)

/-- Model of `syn::PathParameters`: angle-bracketed type arguments (only the types are
relevant to the generator) or parenthesized (`Fn`-style) arguments. -/
inductive PathParams where
  | angleBracketed (types : List Ty)
  | parenthesized

end

/-- Model of `syn::Lit`: only cooked string literals are consulted by the generator
(`StrStyle::Cooked` is modelled by `cooked = true`). -/
inductive Lit where
  | str (value : String) (cooked : Bool)
  | other
  deriving DecidableEq

mutual

/-- Model of `syn::MetaItem`: the interpreted content of an attribute. -/
inductive MetaItem where
  | word (ident : String)
  | nameValue (name : String) (value : Lit)
  | list (name : String) (items : List NestedMetaItem)

/-- Model of `syn::NestedMetaItem`. -/
inductive NestedMetaItem where
  | metaItem (m : MetaItem)
  | literal (l : Lit)

end

/-- Model of `syn::Attribute`: of its fields only `value : MetaItem` is read. -/
structure Attribute where
  value : MetaItem

namespace Bob

/-! ## Decision logic of `src/bob/src/lib.rs` -/

/-- Model of `is_option` (src/bob/src/lib.rs:1003-1010): checks whether the given type
is `Option` by comparing the *first* path segment's identifier against the
literal identifier `Option`. -/
def is_option : Ty → Bool
  | Ty.path _ segments =>
      match segments.head? with
      | some (PathSeg.mk ident _) => ident == "Option"
      | none => false
  | Ty.other => false

/-- Model of `unwrap_from_option` (src/bob/src/lib.rs:990-1000): returns the inner type
`T` of `Option<T>`, i.e. the first angle-bracketed type argument of the first
segment when that segment's identifier is `Option`; `none` otherwise. -/
def unwrap_from_option : Ty → Option Ty
  | Ty.path _ segments =>
      match segments.head? with
      | some (PathSeg.mk ident parameters) =>
          if ident == "Option" then
            match parameters with
            | PathParams.angleBracketed a => a.head?
            | PathParams.parenthesized => none
          else none
      | none => none
  | Ty.other => none

/-- Model of `collect_most_one` (src/bob/src/lib.rs:1013-1019): takes the iterator's
first element and asserts that no further element remains; the assertion
failure (a generation-time panic) is modelled by `Except.error message`. -/
def collect_most_one {T : Type} (l : List T) (message : String) :
    Except String (Option T) :=
  match l with
  | [] => Except.ok none
  | [x] => Except.ok (some x)
  | _ :: _ :: _ => Except.error message

/-- Model of `Named` (src/bob/src/lib.rs:1021-1025): which of the three names a
`builder_names` key-value pair addresses. -/
inductive Named where
  | builder
  | new
  | build
  deriving DecidableEq

/-- Model of `Named::from_str` (src/bob/src/lib.rs:1028-1036). -/
def Named.from_str : String → Option Named
  | "builder" => some Named.builder
  | "new" => some Named.new
  | "build" => some Named.build
  | _ => none

/-- The `#[builder_names(...)]` attributes among `attrs`
(the `filter_map` at src/bob/src/lib.rs:1041-1049). -/
def builderNamesAttrs (attrs : List Attribute) : List (List NestedMetaItem) :=
  attrs.filterMap fun a =>
    match a.value with
    | MetaItem.list name value =>
        if name == "builder_names" then some value else none
    | _ => none

/-- Model of `get_builder_names` (src/bob/src/lib.rs:1040-1071): builder type,
constructor and build-method names, defaulting to
`("Builder", "new", "build")`; at most one `builder_names` attribute. -/
def get_builder_names (attrs : List Attribute) :
    Except String (String × String × String) := do
  let chosen ← collect_most_one (builderNamesAttrs attrs)
    "Only one #[builder_name] attribute supported for struct."
  let pairs := (chosen.getD []).filterMap fun v =>
    match v with
    | NestedMetaItem.metaItem (MetaItem.nameValue name value) =>
        match Named.from_str name with
        | some which =>
            match value with
            | Lit.str s true => some (which, s)
            | _ => none
        | none => none
    | _ => none
  Except.ok (pairs.foldl
    (fun acc p =>
      match p.1 with
      | Named.builder => (p.2, acc.2.1, acc.2.2)
      | Named.new => (acc.1, p.2, acc.2.2)
      | Named.build => (acc.1, acc.2.1, p.2))
    ("Builder", "new", "build"))

/-- Model of `get_derives` (src/bob/src/lib.rs:1073-1093): the identifiers listed in
`#[builder_derive(...)]` attributes.  The source collects them into a
`HashSet<String>`; the model keeps the list, whose `contains` agrees with the
set's. -/
def get_derives (attrs : List Attribute) : List String :=
  attrs.flatMap fun a =>
    match a.value with
    | MetaItem.list name value =>
        if name == "builder_derive" then
          value.filterMap fun v =>
            match v with
            | NestedMetaItem.metaItem (MetaItem.word ident) => some ident
            | _ => none
        else []
    | _ => []

/-- The cooked-string values of `#[builder_prefix = "..."]` attributes among
`attrs` (the `filter_map` at src/bob/src/lib.rs:1097-1107). -/
def builderPrefixAttrs (attrs : List Attribute) : List String :=
  attrs.filterMap fun a =>
    match a.value with
    | MetaItem.nameValue name (Lit.str value true) =>
        if name == "builder_prefix" then some value else none
    | _ => none

/-- Model of `get_setter_prefix` (src/bob/src/lib.rs:1096-1110): the setter-name
prefix of an item, falling back to `dflt`; at most one `builder_prefix`
attribute per item. -/
def get_setter_pfx (attrs : List Attribute) (dflt : String) :
    Except String String := do
  let r ← collect_most_one (builderPrefixAttrs attrs)
    "Only one #[builder_prefix] attribute supported per item."
  Except.ok (r.getD dflt)

/-- The `#[builder_validate(...)]` attributes among `attrs`
(the `filter_map` at src/bob/src/lib.rs:1114-1122). -/
def builderValidateAttrs (attrs : List Attribute) : List (List NestedMetaItem) :=
  attrs.filterMap fun a =>
    match a.value with
    | MetaItem.list name value =>
        if name == "builder_validate" then some value else none
    | _ => none

/-- Model of `get_validator` (src/bob/src/lib.rs:1113-1147): the validator function
path and the optional error type path.  Paths are modelled by their source
strings; `syn::parse_path` is taken to succeed (its panic on a malformed path
is not consulted by any claim).  If a `builder_validate` attribute is present
but names no validator, generation panics (`Except.error`); with no attribute
the default path is returned with no error type. -/
def get_validator (attrs : List Attribute) (dflt : String) :
    Except String (String × Option String) := do
  let result ← collect_most_one (builderValidateAttrs attrs)
    "Only one #[builder_validate] attribute supported for struct."
  match result with
  | some r =>
      let pairs := r.filterMap fun v =>
        match v with
        | NestedMetaItem.metaItem (MetaItem.nameValue name (Lit.str value true)) =>
            if name == "validator" || name == "error" then
              some (name == "validator", value)
            else none
        | _ => none
      let ve := pairs.foldl
        (fun acc p => if p.1 then (some p.2, acc.2) else (acc.1, some p.2))
        ((none : Option String), (none : Option String))
      match ve.1 with
      | some v => Except.ok (v, ve.2)
      | none =>
          Except.error "Validator function has to be provided for `builder_validate` attribute."
  | none => Except.ok (dflt, none)

end Bob

/-! ## The signatures emitted by `create_builder` (src/bob/src/lib.rs:591-981)

The generated builder type is parameterized by one marker type parameter per
required field (in required-field order) followed by the struct's own type
parameters (`add_ty_params` puts the marker parameters at the start,
src/bob/src/lib.rs:1171-1177).  A generated impl's builder type argument at a
marker position is either the concrete tag `O` (`unset`), the concrete tag
`I` (`set`), or a type parameter of the impl left unconstrained (`free`);
the struct's own type parameters are always passed through verbatim, i.e.
`free`, in every generated impl. -/

namespace Bob

/-- One builder type argument position in a generated signature. -/
inductive MarkerArg where
  | free
  | unset
  | set
  deriving DecidableEq

/-- The type-argument list of a generated builder type: marker arguments
followed by the struct's own `pcount` type parameters, always verbatim. -/
def builderArgs (pcount : Nat) (markers : List MarkerArg) : List MarkerArg :=
  markers ++ List.replicate pcount MarkerArg.free

/-- One generated operation, identified by its kind together with the marker
arguments of the builder type it is defined on / returns.

* `constructor`: `fn new()` — an associated function on, and returning, the
  builder type with arguments `out` (src/bob/src/lib.rs:776-789);
* `dropImpl`: the `Drop` impl on `args` (791-803);
* `cloneImpl`/`debugImpl`: the `Clone`/`Debug` impls on `args` (806-849);
* `build` — defined on `input`, returning `Result<Struct, Error>` when
  `returnsResult`, else plain `Struct` (851-894);
* `optionalSetter pos argTy input output`: setter of the `pos`-th optional
  field, taking `argTy` (the unwrapped inner type) (896-916);
* `requiredSetter pos argTy input output`: setter of the `pos`-th required
  field, taking the field's declared type (918-976). -/
inductive GenMethod where
  | constructor (out : List MarkerArg)
  | dropImpl (args : List MarkerArg)
  | cloneImpl (args : List MarkerArg)
  | debugImpl (args : List MarkerArg)
  | build (input : List MarkerArg) (returnsResult : Bool)
  | optionalSetter (pos : Nat) (argTy : Ty) (input : List MarkerArg) (output : List MarkerArg)
  | requiredSetter (pos : Nat) (argTy : Ty) (input : List MarkerArg) (output : List MarkerArg)

/-- Model of `syn::Field`: name (absent for tuple-struct fields), attributes, type. -/
structure FieldDef where
  ident : Option String
  attrs : List Attribute
  ty : Ty

/-- Model of `syn::Body`: the derive input's body — a struct's field list, or anything
else (enum), which the generator rejects. -/
inductive Body where
  | structBody (flds : List FieldDef)
  | notStruct

/-- Model of `syn::DeriveInput` as consulted by the generator: outer attributes, the
number of type parameters of the struct's generics, and the body. -/
structure DeriveInput where
  attrs : List Attribute
  tyParamCount : Nat
  body : Body

/-- The number of required fields of a field list: those whose type is not
classified `Option` (the negative side of the partition at
src/bob/src/lib.rs:606-611). -/
def reqCount (flds : List FieldDef) : Nat :=
  (flds.filter fun f => !is_option f.ty).length

/-- The body of the optional-field setter loop (src/bob/src/lib.rs:896-916)
for the `p.1`-th optional field `p.2`: the setter takes the inner type of the
field's `Option` (the `expect` panic on a non-`Option` is `Except.error`),
honours a per-field `builder_prefix` attribute (at most one), and is emitted
on the fully free builder type, returning the same type
(`rcount`/`pcount` = number of required fields / struct type parameters). -/
def optSetterGen (pfx : String) (rcount pcount : Nat) (p : Nat × FieldDef) :
    Except String GenMethod := do
  let ty ← match unwrap_from_option p.2.ty with
    | some t => Except.ok t
    | none => Except.error "Tried to get inner type from non-Option."
  let _fieldPfx ← get_setter_pfx p.2.attrs pfx
  Except.ok (GenMethod.optionalSetter p.1 ty
    (builderArgs pcount (List.replicate rcount MarkerArg.free))
    (builderArgs pcount (List.replicate rcount MarkerArg.free)))

/-- The body of the required-field setter loop (src/bob/src/lib.rs:918-976)
for the `p.1`-th required field `p.2`: the setter takes the field's declared
type, honours a per-field `builder_prefix` attribute (at most one), and is
emitted on the builder type whose marker `p.1` is `O` with all other
arguments free, returning the type with marker `p.1` changed to `I`. -/
def reqSetterGen (pfx : String) (rcount pcount : Nat) (p : Nat × FieldDef) :
    Except String GenMethod := do
  let _fieldPfx ← get_setter_pfx p.2.attrs pfx
  Except.ok (GenMethod.requiredSetter p.1 p.2.ty
    (builderArgs pcount ((List.replicate rcount MarkerArg.free).set p.1 MarkerArg.unset))
    (builderArgs pcount ((List.replicate rcount MarkerArg.free).set p.1 MarkerArg.set)))

/-- Model of `create_builder` (src/bob/src/lib.rs:591-981), modelled at the level of
emitted signatures.  Generation-time panics (`unwrap`/`assert!`/`expect`/
`panic!`) are `Except.error` with the source's message; on success the list
of generated operations is returned in emission order: module + builder
struct (carrying no operation), constructor, `Drop`, optional `Clone`,
optional `Debug`, `build`, optional-field setters, required-field setters.

Faithfulness notes: the source renames fields `_f{i}` by their index in the
original declaration order before partitioning; those private slot names do
not affect any emitted signature and are not modelled.  The marker index of
a required field is its position in the required-field partition, matching
the source's `fields.iter().enumerate()`. -/
def create_builder (item : DeriveInput) : Except String (List GenMethod) :=
  match item.body with
  | Body.notStruct => Except.error "Only structs supported."
  | Body.structBody flds => do
      let names ← get_builder_names item.attrs
      let pfx ← get_setter_pfx item.attrs ""
      let derives := get_derives item.attrs
      let builder_mod := "_" ++ names.1.toLower
      let vresult ← get_validator item.attrs (builder_mod ++ "::id")
      let parts := flds.partition fun f => is_option f.ty
      let opt_fields := parts.1
      let fields := parts.2
      let rcount := fields.length
      let pcount := item.tyParamCount
      let optSetters ← opt_fields.enum.mapM (optSetterGen pfx rcount pcount)
      let reqSetters ← fields.enum.mapM (reqSetterGen pfx rcount pcount)
      Except.ok
        ([GenMethod.constructor (builderArgs pcount (List.replicate rcount MarkerArg.unset)),
          GenMethod.dropImpl (builderArgs pcount (List.replicate rcount MarkerArg.free))]
         ++ (if (derives.contains "Clone") = true then
              [GenMethod.cloneImpl (builderArgs pcount (List.replicate rcount MarkerArg.free))]
            else [])
         ++ (if (derives.contains "Debug") = true then
              [GenMethod.debugImpl (builderArgs pcount (List.replicate rcount MarkerArg.free))]
            else [])
         ++ [GenMethod.build (builderArgs pcount (List.replicate rcount MarkerArg.set))
              vresult.2.isSome]
         ++ optSetters ++ reqSetters)

end Bob

namespace Bob

/-! ## Type-state semantics of the emitted signatures

A concrete builder *state* assigns each marker position a Boolean
(`true` = `I`/set, `false` = `O`/unset); the trailing struct-parameter
positions carry an arbitrary Boolean that no signature ever constrains.
A generated method applies to a state when its marker-argument list matches
the state, and the returned builder's state instantiates the output marker
arguments over the input state. -/

/-- Whether a generated builder type with marker arguments `args` unifies
with the concrete state `v` (a `free` argument matches anything, `unset`
requires `false`, `set` requires `true`). -/
def matchesB : List MarkerArg → List Bool → Bool
  | [], [] => true
  | MarkerArg.free :: ms, _ :: vs => matchesB ms vs
  | MarkerArg.unset :: ms, b :: vs => !b && matchesB ms vs
  | MarkerArg.set :: ms, b :: vs => b && matchesB ms vs
  | _, _ => false

/-- The concrete state denoted by output marker arguments `args` once the
impl's free parameters have been unified with the input state `v`. -/
def instMarkers : List MarkerArg → List Bool → List Bool
  | MarkerArg.free :: ms, b :: vs => b :: instMarkers ms vs
  | MarkerArg.unset :: ms, _ :: vs => false :: instMarkers ms vs
  | MarkerArg.set :: ms, _ :: vs => true :: instMarkers ms vs
  | _, _ => []

/-- Marker arguments of the builder type a generated method is *called on*
(`none` for the constructor, which is an associated function and cannot be
invoked on an existing builder). -/
def methodSelf : GenMethod → Option (List MarkerArg)
  | GenMethod.constructor _ => none
  | GenMethod.dropImpl a => some a
  | GenMethod.cloneImpl a => some a
  | GenMethod.debugImpl a => some a
  | GenMethod.build inp _ => some inp
  | GenMethod.optionalSetter _ _ inp _ => some inp
  | GenMethod.requiredSetter _ _ inp _ => some inp

/-- Marker arguments of the builder type a generated method *returns*
(`none` when it returns no builder: `Drop`, `Debug` and `build`, the last of
which consumes the builder and returns the record). `Clone` returns `Self`. -/
def methodOut : GenMethod → Option (List MarkerArg)
  | GenMethod.constructor out => some out
  | GenMethod.dropImpl _ => none
  | GenMethod.cloneImpl a => some a
  | GenMethod.debugImpl _ => none
  | GenMethod.build _ _ => none
  | GenMethod.optionalSetter _ _ _ out => some out
  | GenMethod.requiredSetter _ _ _ out => some out

/-- A single type-correct call of method `m` from the emitted list `msl`,
turning a builder in state `v` into one in state `w`. -/
def StepVia (msl : List GenMethod) (m : GenMethod) (v w : List Bool) : Prop :=
  m ∈ msl ∧ ∃ inp out, methodSelf m = some inp ∧ matchesB inp v = true ∧
    methodOut m = some out ∧ w = instMarkers out v

/-- A sequence of type-correct calls from state `v` through the listed
methods to state `u`. -/
inductive Trace (msl : List GenMethod) : List Bool → List GenMethod → List Bool → Prop where
  | nil (v : List Bool) : Trace msl v [] v
  | cons {v w u : List Bool} {m : GenMethod} {path : List GenMethod} :
      StepVia msl m v w → Trace msl w path u → Trace msl v (m :: path) u

/-- Whether a generated method is the required-field setter for marker `i`. -/
def isReqSetterFor (i : Nat) : GenMethod → Bool
  | GenMethod.requiredSetter j _ _ _ => j == i
  | _ => false

/-- Shape of every method emitted by `create_builder` for a struct with `R`
required fields and `P` type parameters: the six fixed signatures plus, for
each required field `i < R`, the single `O → I` transition at position `i`. -/
def WellShaped (R P : Nat) : GenMethod → Prop
  | GenMethod.constructor out => out = builderArgs P (List.replicate R MarkerArg.unset)
  | GenMethod.dropImpl a => a = builderArgs P (List.replicate R MarkerArg.free)
  | GenMethod.cloneImpl a => a = builderArgs P (List.replicate R MarkerArg.free)
  | GenMethod.debugImpl a => a = builderArgs P (List.replicate R MarkerArg.free)
  | GenMethod.build inp _ => inp = builderArgs P (List.replicate R MarkerArg.set)
  | GenMethod.optionalSetter _ _ inp out =>
      inp = builderArgs P (List.replicate R MarkerArg.free) ∧ out = inp
  | GenMethod.requiredSetter i _ inp out =>
      i < R ∧ inp = builderArgs P ((List.replicate R MarkerArg.free).set i MarkerArg.unset) ∧
        out = builderArgs P ((List.replicate R MarkerArg.free).set i MarkerArg.set)

/-! ## Run-time semantics of the generated code (strategy B)

The generated builder stores all required fields inside
`BuilderInner::Inner`, raw and possibly uninitialized, and each optional
field directly as an `Option` initialized to `None`
(src/bob/src/lib.rs:759-788).  Field values of all fields are drawn from a
single abstract type `α` (the per-field Rust types do not influence the
control flow being modelled).  Undefined behaviour — dropping, cloning or
reading an uninitialized slot — and the generated `unreachable!` panics are
modelled by `none`. -/

/-- The marker tags `O`/`I` of the generated module, as run-time data (in the
generated code they are types; each generated impl dispatches on them via the
`MaybeInitialized` trait, src/bob/src/lib.rs:720-756). -/
inductive Marker where
  | O
  | I
  deriving DecidableEq

/-- A raw required-field slot: either written (initialized) or still
uninitialized memory. -/
inductive Slot (α : Type) where
  | uninit
  | init (a : α)
  deriving DecidableEq

/-- Model of `MaybeInitialized::destroy` (src/bob/src/lib.rs:737,746-748) as an
accounting function: the result is the list of values released by the call —
`I::destroy` drops its argument normally (releasing the value), `O::destroy`
calls `mem::forget` (releasing nothing).  Dropping an uninitialized slot
through `I` would be undefined behaviour: `none`. -/
def destroy {α : Type} : Marker → Slot α → Option (List α)
  | Marker.I, Slot.init a => some [a]
  | Marker.I, Slot.uninit => none
  | Marker.O, _ => some []

/-- Model: `destroy` applied to each marker/slot pair of the `Drop` impl's field
list (the repeated `#builder_plain_ty_params::destroy(#builder_field_names)`
at src/bob/src/lib.rs:800), concatenating the released values. -/
def destroyAll {α : Type} : List (Marker × Slot α) → Option (List α)
  | [] => some []
  | p :: rest =>
      match destroy p.1 p.2, destroyAll rest with
      | some r, some rs => some (r ++ rs)
      | _, _ => none

/-- The generated `BuilderInner` enum (src/bob/src/lib.rs:759-766): the
required-field slots, or `Empty` after they have been taken out. -/
inductive BuilderInner (α : Type) where
  | inner (slots : List (Slot α))
  | empty

/-- The generated builder value: its marker vector (type-state, one `Marker`
per required field), the inner storage, and the optional-field slots. -/
structure Builder (α : Type) where
  markers : List Marker
  inner : BuilderInner α
  opts : List (Option α)

/-- The generated constructor `new` (src/bob/src/lib.rs:776-789): marker
vector all `O`, every required slot uninitialized inside `Inner`, every
optional field `None`. -/
def newFn (α : Type) (R numOpt : Nat) : Builder α :=
  { markers := List.replicate R Marker.O,
    inner := BuilderInner.inner (List.replicate R Slot.uninit),
    opts := List.replicate numOpt none }

/-- The generated `Drop` impl (src/bob/src/lib.rs:791-803): first `replace`
the inner storage with `Empty`, then, only if the replaced value was
`Inner`, run `destroy` per required field through its marker.  Returns the
builder as left by the destructor body together with the released values
(`none` = undefined behaviour). -/
def dropFn {α : Type} (b : Builder α) : Builder α × Option (List α) :=
  match b.inner with
  | BuilderInner.inner slots =>
      ({ b with inner := BuilderInner.empty }, destroyAll (b.markers.zip slots))
  | BuilderInner.empty => ({ b with inner := BuilderInner.empty }, some [])

/-- The record assembled by `build`: required-field values in declaration
order of the required partition, then the optional-field contents. -/
structure Record (α : Type) where
  required : List α
  optional : List (Option α)

/-- Reading every required slot out of `Inner` (the pattern match at
src/bob/src/lib.rs:860): `none` if any slot is uninitialized (reading it
would be undefined behaviour — prevented by the all-`I` type state). -/
def slotsValues {α : Type} : List (Slot α) → Option (List α)
  | [] => some []
  | Slot.init a :: rest => (slotsValues rest).map fun vs => a :: vs
  | Slot.uninit :: _ => none

/-- The generated `build` method (src/bob/src/lib.rs:851-894): `replace` the
inner storage with `Empty`, take the required values out of `Inner`, `take()`
each optional field, assemble the record and pass it to the validator —
`#validator(#name { ... })` — whose result is returned as is.  When no
validator was configured the generated code passes the record through the
module's identity function `id`.  The first component is the builder as left
behind (its destructor still runs); `none` models the `unreachable!` panic on
an emptied builder and the undefined read of an uninitialized slot. -/
def buildFn {α ρ : Type} (validator : Record α → ρ) (b : Builder α) :
    Builder α × Option ρ :=
  match b.inner with
  | BuilderInner.inner slots =>
      match slotsValues slots with
      | some vals =>
          ({ b with inner := BuilderInner.empty },
           some (validator { required := vals, optional := b.opts }))
      | none => ({ b with inner := BuilderInner.empty }, none)
  | BuilderInner.empty => ({ b with inner := BuilderInner.empty }, none)

/-- What the generated `Debug` impl prints for one required field. -/
inductive Shown (α : Type) where
  | value (a : α)
  | uninitPlaceholder
  deriving DecidableEq

/-- Model of `MaybeInitialized::expose` (src/bob/src/lib.rs:738-741,749-756):
`I::expose` returns the real value's `Debug` representation; `O::expose`
returns the fixed `Uninitialized` placeholder *without touching its
argument*.  Reading an uninitialized slot through `I` would be undefined
behaviour: `none`. -/
def expose {α : Type} : Marker → Slot α → Option (Shown α)
  | Marker.I, Slot.init a => some (Shown.value a)
  | Marker.I, Slot.uninit => none
  | Marker.O, _ => some Shown.uninitPlaceholder

/-- Model: `expose` applied to each marker/slot pair in the generated `Debug` impl
(src/bob/src/lib.rs:839). -/
def exposeAll {α : Type} : List (Marker × Slot α) → Option (List (Shown α))
  | [] => some []
  | p :: rest =>
      match expose p.1 p.2, exposeAll rest with
      | some s, some ss => some (s :: ss)
      | _, _ => none

/-- The generated `Debug` impl (src/bob/src/lib.rs:830-849): on `Inner`,
print each required field through its marker's `expose` and each optional
field directly; on an emptied builder the generated code is `unreachable!`
(`none`). -/
def fmtFn {α : Type} (b : Builder α) : Option (List (Shown α) × List (Option α)) :=
  match b.inner with
  | BuilderInner.inner slots =>
      match exposeAll (b.markers.zip slots) with
      | some ss => some (ss, b.opts)
      | none => none
  | BuilderInner.empty => none

/-- The per-position safety invariant the type state maintains: a slot whose
marker is `I` has been written. -/
def safeSlot {α : Type} (m : Marker) (s : Slot α) : Prop :=
  m = Marker.I → ∃ a, s = Slot.init a

/-- The values the destructor is expected to release: exactly the written
values sitting at `I` positions, each once. -/
def releasedOf {α : Type} (ms : List Marker) (ss : List (Slot α)) : List α :=
  (ms.zip ss).filterMap fun p =>
    match p with
    | (Marker.I, Slot.init a) => some a
    | _ => none

/-- What the `Debug` impl is expected to print per required field: the
placeholder at `O` positions, the written value at `I` positions (the
`I`/uninitialized combination cannot occur under `safeSlot`; the placeholder
there is an arbitrary total-function default). -/
def shownOf {α : Type} (ms : List Marker) (ss : List (Slot α)) : List (Shown α) :=
  (ms.zip ss).map fun p =>
    match p with
    | (Marker.I, Slot.init a) => Shown.value a
    | _ => Shown.uninitPlaceholder

end Bob

namespace LibA

/-! ## Strategy A: the older generator `src/src/lib.rs`

Required fields are stored in the builder as `Option` slots initialized to
`None`; each setter rebuilds the whole builder value with its own slot
filled; `build` unwraps every required slot (a panic — an internal invariant
violation — if one is empty, modelled by `none`). -/

/-- The partition predicate of src/src/lib.rs:92-101: a field is "normal"
(required) unless its type's first path segment is named `Option`. -/
def is_normal_field (f : Bob.FieldDef) : Bool :=
  match f.ty with
  | Ty.path _ segments =>
      match segments.head? with
      | some (PathSeg.mk ident _) => !(ident == "Option")
      | none => true
  | Ty.other => true

/-- Model of `wrap_into_option` (src/src/lib.rs:23-30): wraps a type into a
single-segment non-global `Option<...>` path. -/
def wrap_into_option (ty : Ty) : Ty :=
  Ty.path false [PathSeg.mk "Option" (PathParams.angleBracketed [ty])]

/-- The declared types of the builder's required-field slots
(src/src/lib.rs:110-117): each required field's type wrapped into `Option`. -/
def builder_req_slot_tys (flds : List Bob.FieldDef) : List Ty :=
  (flds.filter is_normal_field).map fun f => wrap_into_option f.ty

/-- The strategy-A builder value: one `Option` slot per required field (in
required order) and one per optional field.  As in the strategy-B model all
field values are drawn from one abstract type `α`. -/
structure BuilderA (α : Type) where
  slots : List (Option α)
  opts : List (Option α)

/-- The generated constructor (src/src/lib.rs:187-195): every required slot
and every optional slot is `None`. -/
def newA (α : Type) (R numOpt : Nat) : BuilderA α :=
  { slots := List.replicate R none, opts := List.replicate numOpt none }

/-- The generated required-field setter for slot `i`
(src/src/lib.rs:315-327): builds a new instance with `Some` in its own slot
and every other slot and optional field moved over from `self`. -/
def setterA {α : Type} (i : Nat) (v : α) (b : BuilderA α) : BuilderA α :=
  { slots := b.slots.set i (some v), opts := b.opts }

/-- Unwrapping every required slot (`self._i.unwrap()` at
src/src/lib.rs:202): `none` models the unwrap panic on an empty slot. -/
def allSome {α : Type} : List (Option α) → Option (List α)
  | [] => some []
  | some a :: rest => (allSome rest).map fun vs => a :: vs
  | none :: _ => none

/-- The generated `build` method (src/src/lib.rs:197-206): unwrap each
required slot into the record and pass the optional slots through
unchanged. -/
def buildA {α : Type} (b : BuilderA α) : Option (Bob.Record α) :=
  match allSome b.slots with
  | some vals => some { required := vals, optional := b.opts }
  | none => none

end LibA

/-! ## Generic helper lemmas -/

/-- Inversion of a successful `Except` bind. -/
theorem except_bind_ok {ε α β : Type} {x : Except ε α} {f : α → Except ε β} {b : β} :
    (x >>= f) = Except.ok b ↔ ∃ a, x = Except.ok a ∧ f a = Except.ok b := by
  cases x <;> simp [Bind.bind, Except.bind]

/-- Every element of a successful `mapM` image comes from some source
element. -/
theorem mapM_ok_mem {ε α β : Type} {g : α → Except ε β} :
    ∀ {l : List α} {ys : List β}, l.mapM g = Except.ok ys →
      ∀ y ∈ ys, ∃ x ∈ l, g x = Except.ok y := by
  intro l
  induction l with
  | nil =>
      intro ys h y hy
      rw [List.mapM_nil] at h
      simp only [pure, Except.pure, Except.ok.injEq] at h
      subst h
      simp at hy
  | cons x xs ih =>
      intro ys h y hy
      rw [List.mapM_cons] at h
      obtain ⟨b, hb, h2⟩ := except_bind_ok.mp h
      obtain ⟨bs, hbs, h3⟩ := except_bind_ok.mp h2
      simp only [pure, Except.pure, Except.ok.injEq] at h3
      subst h3
      rcases List.mem_cons.mp hy with rfl | hmem
      · exact ⟨x, List.mem_cons_self x xs, hb⟩
      · obtain ⟨x', hx', hgx'⟩ := ih hbs y hmem
        exact ⟨x', List.mem_cons_of_mem x hx', hgx'⟩

/-- Every source element of a successful `mapM` has an image element. -/
theorem mapM_ok_forall {ε α β : Type} {g : α → Except ε β} :
    ∀ {l : List α} {ys : List β}, l.mapM g = Except.ok ys →
      ∀ x ∈ l, ∃ y ∈ ys, g x = Except.ok y := by
  intro l
  induction l with
  | nil =>
      intro ys _ x hx
      simp at hx
  | cons a as ih =>
      intro ys h x hx
      rw [List.mapM_cons] at h
      obtain ⟨b, hb, h2⟩ := except_bind_ok.mp h
      obtain ⟨bs, hbs, h3⟩ := except_bind_ok.mp h2
      simp only [pure, Except.pure, Except.ok.injEq] at h3
      subst h3
      rcases List.mem_cons.mp hx with rfl | hmem
      · exact ⟨b, List.mem_cons_self b bs, hb⟩
      · obtain ⟨y, hy, hgy⟩ := ih hbs x hmem
        exact ⟨y, List.mem_cons_of_mem b hy, hgy⟩

namespace Bob

/-- A successful match forces equal lengths. -/
theorem matchesB_length : ∀ {args : List MarkerArg} {v : List Bool},
    matchesB args v = true → args.length = v.length := by
  intro args
  induction args with
  | nil =>
      intro v h
      cases v with
      | nil => rfl
      | cons b vs => simp [matchesB] at h
  | cons a as ih =>
      intro v h
      cases v with
      | nil => cases a <;> simp [matchesB] at h
      | cons b vs =>
          cases a with
          | free => simpa using ih (by simpa [matchesB] using h)
          | unset =>
              simp only [matchesB, Bool.and_eq_true] at h
              simpa using ih h.2
          | set =>
              simp only [matchesB, Bool.and_eq_true] at h
              simpa using ih h.2

/-- A successful match forces `false` at every `unset` position. -/
theorem matchesB_getElem_unset : ∀ {args : List MarkerArg} {v : List Bool},
    matchesB args v = true → ∀ {j : Nat}, args[j]? = some MarkerArg.unset →
      v[j]? = some false := by
  intro args
  induction args with
  | nil =>
      intro v _ j hj
      simp at hj
  | cons a as ih =>
      intro v h j hj
      cases v with
      | nil => cases a <;> simp [matchesB] at h
      | cons b vs =>
          cases j with
          | zero =>
              simp only [List.getElem?_cons_zero, Option.some.injEq] at hj
              subst hj
              simp only [matchesB, Bool.and_eq_true, Bool.not_eq_true'] at h
              simp [h.1]
          | succ n =>
              simp only [List.getElem?_cons_succ] at hj ⊢
              cases a with
              | free => exact ih (by simpa [matchesB] using h) hj
              | unset =>
                  simp only [matchesB, Bool.and_eq_true] at h
                  exact ih h.2 hj
              | set =>
                  simp only [matchesB, Bool.and_eq_true] at h
                  exact ih h.2 hj

/-- An all-`free` argument list matches any state of the right length. -/
theorem matchesB_replicate_free : ∀ {n : Nat} {v : List Bool},
    v.length = n → matchesB (List.replicate n MarkerArg.free) v = true := by
  intro n
  induction n with
  | zero =>
      intro v hv
      rw [List.length_eq_zero] at hv
      subst hv
      rfl
  | succ k ih =>
      intro v hv
      cases v with
      | nil => simp at hv
      | cons b vs =>
          simp only [List.length_cons, Nat.succ.injEq] at hv
          simpa [List.replicate_succ, matchesB] using ih hv

/-- Instantiating an all-`free` output over a state returns the state. -/
theorem instMarkers_replicate_free : ∀ {v : List Bool},
    instMarkers (List.replicate v.length MarkerArg.free) v = v := by
  intro v
  induction v with
  | nil => rfl
  | cons b vs ih => simpa [List.replicate_succ, instMarkers] using ih

/-- Instantiating an all-`free`-but-`set`-at-`i` output over a state sets
exactly position `i` of the state. -/
theorem instMarkers_set_set : ∀ {v : List Bool} {i : Nat}, i < v.length →
    instMarkers ((List.replicate v.length MarkerArg.free).set i MarkerArg.set) v
      = v.set i true := by
  intro v
  induction v with
  | nil => intro i hi; simp at hi
  | cons b vs ih =>
      intro i hi
      cases i with
      | zero =>
          simp only [List.length_cons, List.replicate_succ, List.set_cons_zero]
          simpa [instMarkers] using instMarkers_replicate_free
      | succ n =>
          simp only [List.length_cons, Nat.succ_lt_succ_iff] at hi
          simp only [List.length_cons, List.replicate_succ, List.set_cons_succ]
          simpa [instMarkers] using ih hi

/-- Lemma: `builderArgs` over an all-`free` marker list is all `free`. -/
theorem builderArgs_free (P R : Nat) :
    builderArgs P (List.replicate R MarkerArg.free)
      = List.replicate (R + P) MarkerArg.free := by
  unfold builderArgs
  rw [List.replicate_add]

/-- Lemma: `builderArgs` over an all-`free` marker list with one position changed. -/
theorem builderArgs_set {P R i : Nat} (hi : i < R) (x : MarkerArg) :
    builderArgs P ((List.replicate R MarkerArg.free).set i x)
      = (List.replicate (R + P) MarkerArg.free).set i x := by
  simp only [builderArgs, List.replicate_add]
  rw [List.set_append_left _ _ (by simpa using hi)]

end Bob

namespace Bob

/-- Any type-correct call of a well-shaped method preserves `set` markers:
no generated operation ever turns a marker back from `I` to `O`. -/
theorem stepVia_mono {R P : Nat} {msl : List GenMethod}
    (hws : ∀ m ∈ msl, WellShaped R P m) {m : GenMethod} {v w : List Bool}
    (hs : StepVia msl m v w) {j : Nat} (hj : v[j]? = some true) :
    w[j]? = some true := by
  obtain ⟨hmem, inp, out, hself, hmatch, hout, hw⟩ := hs
  have hshape := hws m hmem
  cases m with
  | constructor o => simp [methodSelf] at hself
  | dropImpl a => simp [methodOut] at hout
  | debugImpl a => simp [methodOut] at hout
  | build inp' r => simp [methodOut] at hout
  | cloneImpl a =>
      simp only [methodSelf, Option.some.injEq] at hself
      simp only [methodOut, Option.some.injEq] at hout
      subst hself
      subst hout
      simp only [WellShaped] at hshape
      subst hshape
      rw [builderArgs_free] at hmatch hw
      have hlen : R + P = v.length := by simpa using matchesB_length hmatch
      rw [hlen, instMarkers_replicate_free] at hw
      subst hw
      exact hj
  | optionalSetter pos aty inp' out' =>
      simp only [methodSelf, Option.some.injEq] at hself
      simp only [methodOut, Option.some.injEq] at hout
      subst hself
      subst hout
      obtain ⟨hinp, hoeq⟩ := hshape
      subst hoeq
      subst hinp
      rw [builderArgs_free] at hmatch hw
      have hlen : R + P = v.length := by simpa using matchesB_length hmatch
      rw [hlen, instMarkers_replicate_free] at hw
      subst hw
      exact hj
  | requiredSetter i aty inp' out' =>
      simp only [methodSelf, Option.some.injEq] at hself
      simp only [methodOut, Option.some.injEq] at hout
      subst hself
      subst hout
      obtain ⟨hiR, hinp, hoeq⟩ := hshape
      subst hinp
      subst hoeq
      rw [builderArgs_set hiR] at hmatch
      rw [builderArgs_set hiR] at hw
      have hlen : R + P = v.length := by
        simpa using matchesB_length hmatch
      have hiv : i < v.length := by omega
      rw [hlen, instMarkers_set_set hiv] at hw
      subst hw
      by_cases hji : i = j
      · subst hji
        rw [List.getElem?_set_self hiv]
      · rw [List.getElem?_set_ne hji]
        exact hj

/-- A type-correct call of the required setter for marker `i` demands `O` at
position `i` on the way in and delivers `I` at position `i` on the way out. -/
theorem stepVia_req {R P : Nat} {msl : List GenMethod}
    (hws : ∀ m ∈ msl, WellShaped R P m) {i : Nat} {m : GenMethod}
    {v w : List Bool} (hs : StepVia msl m v w)
    (hm : isReqSetterFor i m = true) :
    v[i]? = some false ∧ w[i]? = some true := by
  obtain ⟨hmem, inp, out, hself, hmatch, hout, hw⟩ := hs
  have hshape := hws m hmem
  cases m with
  | constructor o => simp [isReqSetterFor] at hm
  | dropImpl a => simp [isReqSetterFor] at hm
  | debugImpl a => simp [isReqSetterFor] at hm
  | build inp' r => simp [isReqSetterFor] at hm
  | cloneImpl a => simp [isReqSetterFor] at hm
  | optionalSetter pos aty inp' out' => simp [isReqSetterFor] at hm
  | requiredSetter j aty inp' out' =>
      simp only [isReqSetterFor, beq_iff_eq] at hm
      subst hm
      simp only [methodSelf, Option.some.injEq] at hself
      simp only [methodOut, Option.some.injEq] at hout
      subst hself
      subst hout
      obtain ⟨hiR, hinp, hoeq⟩ := hshape
      subst hinp
      subst hoeq
      rw [builderArgs_set hiR] at hmatch
      rw [builderArgs_set hiR] at hw
      have hlen : R + P = v.length := by
        simpa using matchesB_length hmatch
      have hiv : j < v.length := by omega
      constructor
      · refine matchesB_getElem_unset hmatch ?_
        exact List.getElem?_set_self (by simp only [List.length_replicate]; omega)
      · rw [hlen, instMarkers_set_set hiv] at hw
        subst hw
        rw [List.getElem?_set_self hiv]

/-- Along any type-correct call sequence over well-shaped methods, the
required setter for marker `i` fires at most once, and never at all from a
state where marker `i` is already `I`. -/
theorem trace_countP {R P : Nat} {msl : List GenMethod}
    (hws : ∀ m ∈ msl, WellShaped R P m) (i : Nat) :
    ∀ {v : List Bool} {path : List GenMethod} {u : List Bool},
      Trace msl v path u →
        (v[i]? = some true → path.countP (isReqSetterFor i) = 0) ∧
        path.countP (isReqSetterFor i) ≤ 1 := by
  intro v path u ht
  induction ht with
  | nil => simp
  | @cons v w u m path hs htail ih =>
      rw [List.countP_cons]
      by_cases hm : isReqSetterFor i m = true
      · obtain ⟨hvf, hwt⟩ := stepVia_req hws hs hm
        have h0 := ih.1 hwt
        constructor
        · intro hvt
          rw [hvf] at hvt
          simp at hvt
        · simp [hm, h0]
      · constructor
        · intro hvt
          have hwt := stepVia_mono hws hs hvt
          simp [hm, ih.1 hwt]
        · have h1 := ih.2
          simp only [Bool.not_eq_true] at hm
          rw [hm]
          simpa using h1

end Bob

namespace Bob

/-- Inversion of a successful optional-setter generation: the field's type
unwrapped from `Option`, and the all-free self/return builder type. -/
theorem optSetterGen_ok {pfx : String} {rcount pcount : Nat}
    {p : Nat × FieldDef} {m : GenMethod}
    (h : optSetterGen pfx rcount pcount p = Except.ok m) :
    ∃ aty, unwrap_from_option p.2.ty = some aty ∧
      m = GenMethod.optionalSetter p.1 aty
        (builderArgs pcount (List.replicate rcount MarkerArg.free))
        (builderArgs pcount (List.replicate rcount MarkerArg.free)) := by
  unfold optSetterGen at h
  cases hu : unwrap_from_option p.2.ty with
  | none =>
      rw [hu] at h
      obtain ⟨ty, hty, -⟩ := except_bind_ok.mp h
      simp at hty
  | some t =>
      rw [hu] at h
      obtain ⟨ty, hty, h2⟩ := except_bind_ok.mp h
      simp only [Except.ok.injEq] at hty
      subst hty
      obtain ⟨s, -, h3⟩ := except_bind_ok.mp h2
      simp only [Except.ok.injEq] at h3
      exact ⟨t, rfl, h3.symm⟩

/-- Inversion of a successful required-setter generation: the field's
declared type and the single `O → I` transition at its marker position. -/
theorem reqSetterGen_ok {pfx : String} {rcount pcount : Nat}
    {p : Nat × FieldDef} {m : GenMethod}
    (h : reqSetterGen pfx rcount pcount p = Except.ok m) :
    m = GenMethod.requiredSetter p.1 p.2.ty
      (builderArgs pcount ((List.replicate rcount MarkerArg.free).set p.1 MarkerArg.unset))
      (builderArgs pcount ((List.replicate rcount MarkerArg.free).set p.1 MarkerArg.set)) := by
  unfold reqSetterGen at h
  obtain ⟨s, -, h2⟩ := except_bind_ok.mp h
  simp only [Except.ok.injEq] at h2
  exact h2.symm

/-- Structural inversion of a successful `create_builder` run on a struct:
the intermediate attribute-processing results and the emitted method list. -/
theorem create_builder_ok_parts {item : DeriveInput} {flds : List FieldDef}
    {msl : List GenMethod}
    (hbody : item.body = Body.structBody flds)
    (hok : create_builder item = Except.ok msl) :
    ∃ (names : String × String × String) (pfx : String)
      (vres : String × Option String)
      (optSetters reqSetters : List GenMethod),
      get_builder_names item.attrs = Except.ok names ∧
      get_setter_pfx item.attrs "" = Except.ok pfx ∧
      get_validator item.attrs ("_" ++ names.1.toLower ++ "::id") = Except.ok vres ∧
      (flds.filter fun f => is_option f.ty).enum.mapM
        (optSetterGen pfx (reqCount flds) item.tyParamCount) = Except.ok optSetters ∧
      (flds.filter fun f => !is_option f.ty).enum.mapM
        (reqSetterGen pfx (reqCount flds) item.tyParamCount) = Except.ok reqSetters ∧
      msl =
        [GenMethod.constructor (builderArgs item.tyParamCount
            (List.replicate (reqCount flds) MarkerArg.unset)),
         GenMethod.dropImpl (builderArgs item.tyParamCount
            (List.replicate (reqCount flds) MarkerArg.free))]
        ++ (if (get_derives item.attrs).contains "Clone" = true then
              [GenMethod.cloneImpl (builderArgs item.tyParamCount
                (List.replicate (reqCount flds) MarkerArg.free))]
            else [])
        ++ (if (get_derives item.attrs).contains "Debug" = true then
              [GenMethod.debugImpl (builderArgs item.tyParamCount
                (List.replicate (reqCount flds) MarkerArg.free))]
            else [])
        ++ [GenMethod.build (builderArgs item.tyParamCount
              (List.replicate (reqCount flds) MarkerArg.set)) vres.2.isSome]
        ++ optSetters ++ reqSetters := by
  unfold create_builder at hok
  rw [hbody] at hok
  obtain ⟨names, hnames, hok⟩ := except_bind_ok.mp hok
  obtain ⟨pfx, hpfx, hok⟩ := except_bind_ok.mp hok
  obtain ⟨vres, hvres, hok⟩ := except_bind_ok.mp hok
  obtain ⟨optSetters, hopt, hok⟩ := except_bind_ok.mp hok
  obtain ⟨reqSetters, hreq, hok⟩ := except_bind_ok.mp hok
  simp only [Except.ok.injEq] at hok
  subst hok
  have hparts := List.partition_eq_filter_filter (fun f => is_option f.ty) flds
  have hfst : (flds.partition fun f => is_option f.ty).1
      = flds.filter fun f => is_option f.ty := by rw [hparts]
  have hsnd : (flds.partition fun f => is_option f.ty).2
      = flds.filter fun f => !is_option f.ty := by
    simp [List.partition_eq_filter_filter, Function.comp_def]
  have hrc : (flds.partition fun f => is_option f.ty).2.length = reqCount flds := by
    rw [hsnd]; rfl
  rw [hfst, hrc] at hopt
  rw [hrc] at hreq
  rw [hsnd] at hreq
  refine ⟨names, pfx, vres, optSetters, reqSetters, hnames, hpfx, hvres, hopt, hreq, ?_⟩
  simp only [hrc]

end Bob

/-- The first component of an `enum` member is a valid index. -/
theorem mem_enum_lt {α : Type} {l : List α} {p : Nat × α} (h : p ∈ l.enum) :
    p.1 < l.length :=
  (List.getElem?_eq_some.mp (List.mem_enum_iff_getElem?.mp h)).1

/-- Every valid index occurs in `enum` with its element. -/
theorem mem_enum_of_lt {α : Type} {l : List α} {i : Nat} (h : i < l.length) :
    (i, l[i]) ∈ l.enum :=
  List.mem_enum_iff_getElem?.mpr (by simp [List.getElem?_eq_getElem h])

namespace Bob

/-- Every method emitted by a successful `create_builder` run is well-shaped:
the only marker transition any of them performs is the single `O → I` flip of
a required setter at its own position. -/
theorem create_builder_shapes {item : DeriveInput} {flds : List FieldDef}
    {msl : List GenMethod}
    (hbody : item.body = Body.structBody flds)
    (hok : create_builder item = Except.ok msl) :
    ∀ m ∈ msl, WellShaped (reqCount flds) item.tyParamCount m := by
  obtain ⟨names, pfx, vres, optSetters, reqSetters, -, -, -, hopt, hreq, hmsl⟩ :=
    create_builder_ok_parts hbody hok
  subst hmsl
  intro m hm
  rcases List.mem_append.mp hm with hm | hreqm
  · rcases List.mem_append.mp hm with hm | hoptm
    · rcases List.mem_append.mp hm with hm | hbuild
      · rcases List.mem_append.mp hm with hm | hdbg
        · rcases List.mem_append.mp hm with hbase | hcl
          · rcases List.mem_cons.mp hbase with rfl | hbase
            · exact rfl
            · rcases List.mem_cons.mp hbase with rfl | hbase
              · exact rfl
              · simp at hbase
          · split at hcl
            · rcases List.mem_singleton.mp hcl with rfl
              exact rfl
            · simp at hcl
        · split at hdbg
          · rcases List.mem_singleton.mp hdbg with rfl
            exact rfl
          · simp at hdbg
      · rcases List.mem_singleton.mp hbuild with rfl
        exact rfl
    · obtain ⟨x, -, hgen⟩ := mapM_ok_mem hopt m hoptm
      obtain ⟨aty, -, rfl⟩ := optSetterGen_ok hgen
      exact ⟨rfl, rfl⟩
  · obtain ⟨x, hx, hgen⟩ := mapM_ok_mem hreq m hreqm
    have hlt : x.1 < reqCount flds := mem_enum_lt hx
    rw [reqSetterGen_ok hgen]
    exact ⟨hlt, rfl, rfl⟩

/-- A successful `create_builder` run emits the constructor on the all-`O`
builder type, and any emitted constructor is that one. -/
theorem create_builder_constructor_char {item : DeriveInput} {flds : List FieldDef}
    {msl : List GenMethod}
    (hbody : item.body = Body.structBody flds)
    (hok : create_builder item = Except.ok msl) :
    GenMethod.constructor (builderArgs item.tyParamCount
        (List.replicate (reqCount flds) MarkerArg.unset)) ∈ msl ∧
      ∀ out, GenMethod.constructor out ∈ msl →
        out = builderArgs item.tyParamCount
          (List.replicate (reqCount flds) MarkerArg.unset) := by
  constructor
  · obtain ⟨names, pfx, vres, optSetters, reqSetters, -, -, -, -, -, hmsl⟩ :=
      create_builder_ok_parts hbody hok
    subst hmsl
    refine List.mem_append_left _ (List.mem_append_left _ (List.mem_append_left _
      (List.mem_append_left _ (List.mem_append_left _ ?_))))
    exact List.mem_cons_self _ _
  · intro out hmem
    exact create_builder_shapes hbody hok _ hmem

/-- A successful `create_builder` run emits exactly one `build` method: it is
defined on the all-`I` builder type and returns a `Result` exactly when the
`builder_validate` processing produced an error type. -/
theorem create_builder_build_char {item : DeriveInput} {flds : List FieldDef}
    {msl : List GenMethod}
    (hbody : item.body = Body.structBody flds)
    (hok : create_builder item = Except.ok msl) :
    ∃ (names : String × String × String) (vres : String × Option String),
      get_builder_names item.attrs = Except.ok names ∧
      get_validator item.attrs ("_" ++ names.1.toLower ++ "::id") = Except.ok vres ∧
      GenMethod.build (builderArgs item.tyParamCount
        (List.replicate (reqCount flds) MarkerArg.set)) vres.2.isSome ∈ msl ∧
      ∀ inp r, GenMethod.build inp r ∈ msl →
        inp = builderArgs item.tyParamCount
            (List.replicate (reqCount flds) MarkerArg.set) ∧
          r = vres.2.isSome := by
  obtain ⟨names, pfx, vres, optSetters, reqSetters, hnames, -, hvres, hopt, hreq, hmsl⟩ :=
    create_builder_ok_parts hbody hok
  subst hmsl
  refine ⟨names, vres, hnames, hvres, ?_, ?_⟩
  · refine List.mem_append_left _ (List.mem_append_left _ (List.mem_append_right _ ?_))
    exact List.mem_cons_self _ _
  · intro inp r hm
    rcases List.mem_append.mp hm with hm | hreqm
    · rcases List.mem_append.mp hm with hm | hoptm
      · rcases List.mem_append.mp hm with hm | hbuild
        · rcases List.mem_append.mp hm with hm | hdbg
          · rcases List.mem_append.mp hm with hbase | hcl
            · rcases List.mem_cons.mp hbase with h | hbase
              · cases h
              · rcases List.mem_cons.mp hbase with h | hbase
                · cases h
                · simp at hbase
            · split at hcl
              · rcases List.mem_singleton.mp hcl with h
                cases h
              · simp at hcl
          · split at hdbg
            · rcases List.mem_singleton.mp hdbg with h
              cases h
            · simp at hdbg
        · rcases List.mem_singleton.mp hbuild with h
          cases h
          exact ⟨rfl, rfl⟩
      · obtain ⟨x, -, hgen⟩ := mapM_ok_mem hopt _ hoptm
        obtain ⟨aty, -, heq⟩ := optSetterGen_ok hgen
        cases heq
    · obtain ⟨x, -, hgen⟩ := mapM_ok_mem hreq _ hreqm
      have heq := reqSetterGen_ok hgen
      cases heq

/-- For every marker index `i` below the required count, a successful run
emits the required setter for `i` taking the `i`-th required field's declared
type, on the builder type with marker `i` equal to `O` and everything else
free, returning the type with marker `i` equal to `I`. -/
theorem create_builder_reqSetter_mem {item : DeriveInput} {flds : List FieldDef}
    {msl : List GenMethod}
    (hbody : item.body = Body.structBody flds)
    (hok : create_builder item = Except.ok msl) {i : Nat}
    (hi : i < reqCount flds) :
    ∃ f, (flds.filter fun g => !is_option g.ty)[i]? = some f ∧
      GenMethod.requiredSetter i f.ty
        (builderArgs item.tyParamCount
          ((List.replicate (reqCount flds) MarkerArg.free).set i MarkerArg.unset))
        (builderArgs item.tyParamCount
          ((List.replicate (reqCount flds) MarkerArg.free).set i MarkerArg.set)) ∈ msl := by
  obtain ⟨names, pfx, vres, optSetters, reqSetters, -, -, -, hopt, hreq, hmsl⟩ :=
    create_builder_ok_parts hbody hok
  subst hmsl
  have hi' : i < (flds.filter fun g => !is_option g.ty).length := hi
  have hmem := mem_enum_of_lt hi'
  obtain ⟨y, hy, hgen⟩ := mapM_ok_forall hreq _ hmem
  have heq := reqSetterGen_ok hgen
  refine ⟨(flds.filter fun g => !is_option g.ty)[i],
    List.getElem?_eq_getElem hi', ?_⟩
  rw [← heq]
  exact List.mem_append_right _ hy

/-- Every field classified optional (`Option` head) gets an optional setter
taking the unwrapped inner type, on the fully free builder type, returning
the same type. -/
theorem create_builder_optSetter_mem {item : DeriveInput} {flds : List FieldDef}
    {msl : List GenMethod}
    (hbody : item.body = Body.structBody flds)
    (hok : create_builder item = Except.ok msl) {f : FieldDef}
    (hf : f ∈ flds) (hfo : is_option f.ty = true) :
    ∃ pos aty, unwrap_from_option f.ty = some aty ∧
      GenMethod.optionalSetter pos aty
        (builderArgs item.tyParamCount
          (List.replicate (reqCount flds) MarkerArg.free))
        (builderArgs item.tyParamCount
          (List.replicate (reqCount flds) MarkerArg.free)) ∈ msl := by
  obtain ⟨names, pfx, vres, optSetters, reqSetters, -, -, -, hopt, hreq, hmsl⟩ :=
    create_builder_ok_parts hbody hok
  subst hmsl
  have hf' : f ∈ flds.filter fun g => is_option g.ty :=
    List.mem_filter.mpr ⟨hf, hfo⟩
  obtain ⟨pos, hpos⟩ := List.mem_iff_getElem?.mp hf'
  have hmem : (pos, f) ∈ (flds.filter fun g => is_option g.ty).enum :=
    List.mem_enum_iff_getElem?.mpr hpos
  obtain ⟨y, hy, hgen⟩ := mapM_ok_forall hopt _ hmem
  obtain ⟨aty, hu, heq⟩ := optSetterGen_ok hgen
  refine ⟨pos, aty, hu, ?_⟩
  rw [← heq]
  exact List.mem_append_left _ (List.mem_append_right _ hy)

/-- Every field not classified optional gets a required setter taking the
field's declared type at some marker position. -/
theorem create_builder_field_reqSetter_mem {item : DeriveInput}
    {flds : List FieldDef} {msl : List GenMethod}
    (hbody : item.body = Body.structBody flds)
    (hok : create_builder item = Except.ok msl) {f : FieldDef}
    (hf : f ∈ flds) (hfo : is_option f.ty = false) :
    ∃ pos,
      GenMethod.requiredSetter pos f.ty
        (builderArgs item.tyParamCount
          ((List.replicate (reqCount flds) MarkerArg.free).set pos MarkerArg.unset))
        (builderArgs item.tyParamCount
          ((List.replicate (reqCount flds) MarkerArg.free).set pos MarkerArg.set)) ∈ msl := by
  obtain ⟨names, pfx, vres, optSetters, reqSetters, -, -, -, hopt, hreq, hmsl⟩ :=
    create_builder_ok_parts hbody hok
  subst hmsl
  have hf' : f ∈ flds.filter fun g => !is_option g.ty :=
    List.mem_filter.mpr ⟨hf, by simp [hfo]⟩
  obtain ⟨pos, hpos⟩ := List.mem_iff_getElem?.mp hf'
  have hmem : (pos, f) ∈ (flds.filter fun g => !is_option g.ty).enum :=
    List.mem_enum_iff_getElem?.mpr hpos
  obtain ⟨y, hy, hgen⟩ := mapM_ok_forall hreq _ hmem
  have heq := reqSetterGen_ok hgen
  refine ⟨pos, ?_⟩
  rw [← heq]
  exact List.mem_append_right _ hy

end Bob

namespace Bob

/-! ## Run-time helper lemmas -/

/-- Under the type-state invariant, the destructor's per-field dispatch is
defined (never drops an uninitialized slot) and releases exactly the written
values at `I` positions, each once. -/
theorem destroyAll_safe {α : Type} :
    ∀ {ms : List Marker} {ss : List (Slot α)}, List.Forall₂ safeSlot ms ss →
      destroyAll (ms.zip ss) = some (releasedOf ms ss) := by
  intro ms ss h
  induction h with
  | nil => rfl
  | @cons m s ms' ss' hhead _ ih =>
      cases m with
      | O =>
          calc destroyAll ((Marker.O :: ms').zip (s :: ss'))
              = (match destroy Marker.O s, destroyAll (ms'.zip ss') with
                  | some r, some rs => some (r ++ rs)
                  | _, _ => none) := rfl
            _ = some (releasedOf (Marker.O :: ms') (s :: ss')) := by rw [ih]; rfl
      | I =>
          obtain ⟨a, rfl⟩ := hhead rfl
          calc destroyAll ((Marker.I :: ms').zip (Slot.init a :: ss'))
              = (match destroy Marker.I (Slot.init a), destroyAll (ms'.zip ss') with
                  | some r, some rs => some (r ++ rs)
                  | _, _ => none) := rfl
            _ = some (releasedOf (Marker.I :: ms') (Slot.init a :: ss')) := by
                rw [ih]; rfl

/-- Under the type-state invariant, the `Debug` dispatch is defined (never
reads an uninitialized slot) and produces the placeholder at `O` positions
and the written value at `I` positions. -/
theorem exposeAll_safe {α : Type} :
    ∀ {ms : List Marker} {ss : List (Slot α)}, List.Forall₂ safeSlot ms ss →
      exposeAll (ms.zip ss) = some (shownOf ms ss) := by
  intro ms ss h
  induction h with
  | nil => rfl
  | @cons m s ms' ss' hhead _ ih =>
      cases m with
      | O =>
          calc exposeAll ((Marker.O :: ms').zip (s :: ss'))
              = (match expose Marker.O s, exposeAll (ms'.zip ss') with
                  | some x, some xs => some (x :: xs)
                  | _, _ => none) := rfl
            _ = some (shownOf (Marker.O :: ms') (s :: ss')) := by rw [ih]; rfl
      | I =>
          obtain ⟨a, rfl⟩ := hhead rfl
          calc exposeAll ((Marker.I :: ms').zip (Slot.init a :: ss'))
              = (match expose Marker.I (Slot.init a), exposeAll (ms'.zip ss') with
                  | some x, some xs => some (x :: xs)
                  | _, _ => none) := rfl
            _ = some (shownOf (Marker.I :: ms') (Slot.init a :: ss')) := by
                rw [ih]; rfl

/-- The freshly constructed builder's marker/slot vectors satisfy the
type-state invariant (vacuously: every marker is `O`). -/
theorem forall₂_safe_new {α : Type} (R : Nat) :
    List.Forall₂ safeSlot (List.replicate R Marker.O)
      (List.replicate R (Slot.uninit : Slot α)) := by
  induction R with
  | zero => exact List.Forall₂.nil
  | succ k ih =>
      simp only [List.replicate_succ]
      exact List.Forall₂.cons (fun h => nomatch h) ih

/-- Lemma: `shownOf` on the fresh all-`O`, all-uninitialized vectors is the
placeholder everywhere. -/
theorem shownOf_new {α : Type} (R : Nat) :
    shownOf (List.replicate R Marker.O) (List.replicate R (Slot.uninit : Slot α))
      = List.replicate R Shown.uninitPlaceholder := by
  induction R with
  | zero => rfl
  | succ k ih =>
      calc shownOf (List.replicate (k + 1) Marker.O)
            (List.replicate (k + 1) (Slot.uninit : Slot α))
          = Shown.uninitPlaceholder :: shownOf (List.replicate k Marker.O)
              (List.replicate k (Slot.uninit : Slot α)) := rfl
        _ = List.replicate (k + 1) Shown.uninitPlaceholder := by rw [ih]; rfl

end Bob

namespace LibA

/-- Unwrapping fails (the generated `unwrap` panics) as soon as one required
slot is empty. -/
theorem allSome_eq_none {α : Type} :
    ∀ {l : List (Option α)}, none ∈ l → allSome l = none := by
  intro l h
  induction l with
  | nil => simp at h
  | cons x xs ih =>
      rcases List.mem_cons.mp h with rfl | hmem
      · rfl
      · cases x with
        | none => rfl
        | some a => simp [allSome, ih hmem]

/-- Unwrapping succeeds when every required slot is filled. -/
theorem allSome_eq_some {α : Type} :
    ∀ {l : List (Option α)}, (∀ x ∈ l, x ≠ none) →
      ∃ vals, allSome l = some vals := by
  intro l h
  induction l with
  | nil => exact ⟨[], rfl⟩
  | cons x xs ih =>
      cases x with
      | none => exact absurd rfl (h none (List.mem_cons_self _ _))
      | some a =>
          obtain ⟨vals, hvals⟩ := ih fun y hy => h y (List.mem_cons_of_mem _ hy)
          exact ⟨a :: vals, by simp [allSome, hvals]⟩

end LibA

open Bob

/-! ## Claim theorems -/

/-- Claim C3: The generated destructor of the strategy-B builder first
replaces the inner storage with the `Empty` variant, and only if the replaced
value was the `Inner` (occupied) variant does it invoke the per-field marker
dispatch on each required field — `I` (`Set`) drops the value, `O` (`Unset`)
forgets it — so uninitialized slots are never dropped and no slot is released
twice: a second destructor run, or a run after the finalizer has already
emptied the builder, releases nothing. -/
theorem c3_drop_swaps_then_releases {α ρ : Type} :
    (∀ a : α, destroy Marker.I (Slot.init a) = some [a]) ∧
    (∀ s : Slot α, destroy Marker.O s = some []) ∧
    (∀ b : Builder α, (dropFn b).1.inner = BuilderInner.empty) ∧
    (∀ b : Builder α, b.inner = BuilderInner.empty → (dropFn b).2 = some []) ∧
    (∀ b : Builder α, (dropFn (dropFn b).1).2 = some []) ∧
    (∀ (f : Record α → ρ) (b : Builder α),
      (dropFn (buildFn f b).1).2 = some []) ∧
    (∀ (ms : List Marker) (ss : List (Slot α)), List.Forall₂ safeSlot ms ss →
      destroyAll (ms.zip ss) = some (releasedOf ms ss)) := by
  refine ⟨fun a => rfl, fun s => rfl, ?_, ?_, ?_, ?_, fun ms ss h => destroyAll_safe h⟩
  · intro b
    obtain ⟨ms, binner, opts⟩ := b
    cases binner <;> rfl
  · intro b h
    obtain ⟨ms, binner, opts⟩ := b
    cases binner with
    | inner slots => cases h
    | empty => rfl
  · intro b
    obtain ⟨ms, binner, opts⟩ := b
    cases binner <;> rfl
  · intro f b
    obtain ⟨ms, binner, opts⟩ := b
    cases binner with
    | empty => rfl
    | inner slots =>
        cases hsv : slotsValues slots with
        | none => simp [buildFn, hsv, dropFn]
        | some vals => simp [buildFn, hsv, dropFn]

/-- Witness for `c3_drop_swaps_then_releases`: a concrete already-emptied
builder whose destructor releases nothing, and a concrete marker/slot vector
(one set slot holding `3`, one unset slot) whose destructor dispatch releases
exactly the set value once. -/
theorem c3_drop_swaps_then_releases_witness :
    (dropFn (⟨[Marker.I], BuilderInner.empty, []⟩ : Builder Nat)).2 = some [] ∧
    destroyAll ([Marker.I, Marker.O].zip [Slot.init (3 : Nat), Slot.uninit])
      = some (releasedOf [Marker.I, Marker.O] [Slot.init (3 : Nat), Slot.uninit]) :=
  ⟨(@c3_drop_swaps_then_releases Nat Nat).2.2.2.1 _ rfl,
   (@c3_drop_swaps_then_releases Nat Nat).2.2.2.2.2.2 _ _
     (List.Forall₂.cons (fun _ => ⟨3, rfl⟩)
       (List.Forall₂.cons (fun h => nomatch h) List.Forall₂.nil))⟩

/-- Claim C4: With a validator configured, the generated finalizer assembles
the record — every required value moved out of the inner storage, every
optional value taken — and only then passes it through the validator, exactly
once, returning the validator's result (success value or typed error, `ρ` may
be any result type) unchanged; with no `builder_validate` directive,
`get_validator` falls back to the identity pass-through with no error type,
so the finalizer returns the assembled record directly. -/
theorem c4_validator_exactly_once {α : Type} :
    (∀ (attrs : List Attribute) (d : String), builderValidateAttrs attrs = [] →
      get_validator attrs d = Except.ok (d, none)) ∧
    (∀ (ρ : Type) (f : Record α → ρ) (b : Builder α)
        (slots : List (Slot α)) (vals : List α),
      b.inner = BuilderInner.inner slots → slotsValues slots = some vals →
      buildFn f b = ({ b with inner := BuilderInner.empty },
        some (f { required := vals, optional := b.opts }))) ∧
    (∀ (b : Builder α) (slots : List (Slot α)) (vals : List α),
      b.inner = BuilderInner.inner slots → slotsValues slots = some vals →
      buildFn (fun r => r) b = ({ b with inner := BuilderInner.empty },
        some { required := vals, optional := b.opts })) ∧
    (∀ (b : Builder α) (slots : List (Slot α)) (vals : List α),
      b.inner = BuilderInner.inner slots → slotsValues slots = some vals →
      (buildFn (fun r => (r, 1)) b).2
        = some ({ required := vals, optional := b.opts }, 1)) := by
  have key : ∀ (ρ : Type) (f : Record α → ρ) (b : Builder α)
      (slots : List (Slot α)) (vals : List α),
      b.inner = BuilderInner.inner slots → slotsValues slots = some vals →
      buildFn f b = ({ b with inner := BuilderInner.empty },
        some (f { required := vals, optional := b.opts })) := by
    intro ρ f b slots vals hin hv
    obtain ⟨ms, binner, opts⟩ := b
    simp only at hin
    subst hin
    simp [buildFn, hv]
  refine ⟨?_, key, ?_, ?_⟩
  · intro attrs d h
    unfold get_validator
    rw [h]
    rfl
  · intro b slots vals hin hv
    exact key _ _ b slots vals hin hv
  · intro b slots vals hin hv
    rw [key _ _ b slots vals hin hv]

/-- Witness for `c4_validator_exactly_once`: on a concrete occupied builder
holding `5` with one optional slot `some 9`, a concrete validator is applied
exactly once to the fully assembled record and its result returned verbatim;
and `get_validator` on an attribute list with no `builder_validate` directive
yields the default identity path with no error type. -/
theorem c4_validator_exactly_once_witness :
    get_validator [] "_builder::id" = Except.ok ("_builder::id", none) ∧
    buildFn (fun r => r.required)
        (⟨[Marker.I], BuilderInner.inner [Slot.init (5 : Nat)], [some 9]⟩ : Builder Nat)
      = (⟨[Marker.I], BuilderInner.empty, [some 9]⟩, some [5]) :=
  ⟨(@c4_validator_exactly_once Nat).1 [] "_builder::id" rfl,
   (@c4_validator_exactly_once Nat).2.1 (List Nat) (fun r => r.required)
     ⟨[Marker.I], BuilderInner.inner [Slot.init 5], [some 9]⟩
     [Slot.init 5] [5] rfl rfl⟩

/-- Claim C7: The generated `Debug` implementation renders every required
field whose marker is `O` (`Unset`) as the fixed `Uninitialized` placeholder
without reading the raw slot (the `O` dispatch ignores its argument), renders
every `I` (`Set`) required field through the real value, and renders optional
fields directly; on a freshly constructed builder it therefore shows the
placeholder for every required field and `none` for every optional field. -/
theorem c7_debug_never_reads_unset {α : Type} :
    (∀ R numOpt : Nat, fmtFn (newFn α R numOpt)
      = some (List.replicate R Shown.uninitPlaceholder,
              List.replicate numOpt none)) ∧
    (∀ s s' : Slot α, expose Marker.O s = expose Marker.O s') ∧
    (∀ s : Slot α, expose Marker.O s = some Shown.uninitPlaceholder) ∧
    (∀ a : α, expose Marker.I (Slot.init a) = some (Shown.value a)) ∧
    (∀ (b : Builder α) (slots : List (Slot α)),
      b.inner = BuilderInner.inner slots →
      List.Forall₂ safeSlot b.markers slots →
      fmtFn b = some (shownOf b.markers slots, b.opts)) := by
  refine ⟨?_, fun s s' => rfl, fun s => rfl, fun a => rfl, ?_⟩
  · intro R numOpt
    have h := exposeAll_safe (@forall₂_safe_new α R)
    rw [shownOf_new] at h
    simp only [fmtFn, newFn, h]
  · intro b slots hin hsafe
    obtain ⟨ms, binner, opts⟩ := b
    simp only at hin hsafe ⊢
    subst hin
    simp [fmtFn, exposeAll_safe hsafe]

/-- Witness for `c7_debug_never_reads_unset`: inspecting a concrete builder
with one unset and one set required slot shows the placeholder for the unset
slot and the real value for the set one, with the optional slot printed
directly. -/
theorem c7_debug_never_reads_unset_witness :
    fmtFn (⟨[Marker.O, Marker.I],
        BuilderInner.inner [Slot.uninit, Slot.init (4 : Nat)], [none]⟩ : Builder Nat)
      = some (shownOf [Marker.O, Marker.I] [Slot.uninit, Slot.init (4 : Nat)], [none]) :=
  (@c7_debug_never_reads_unset Nat).2.2.2.2
    ⟨[Marker.O, Marker.I], BuilderInner.inner [Slot.uninit, Slot.init 4], [none]⟩
    [Slot.uninit, Slot.init 4] rfl
    (List.Forall₂.cons (fun h => nomatch h)
      (List.Forall₂.cons (fun _ => ⟨4, rfl⟩) List.Forall₂.nil))

/-- Claim C6: In strategy A (`src/src/lib.rs`), every required field is stored
in the builder as an `Option` slot (`wrap_into_option` of its declared type —
a type the generators themselves classify as `Option`) initialized to `None`;
each required setter fills exactly its own slot and moves the others and the
optional fields into the new instance unchanged; and the finalizer unwraps
each required slot, an empty slot hitting the `unwrap` panic (an internal
invariant violation, modelled by `none`) rather than a user-facing error. -/
theorem c6_strategy_a_nullable_slots {α : Type} :
    (∀ R numOpt : Nat, (LibA.newA α R numOpt).slots = List.replicate R none ∧
      (LibA.newA α R numOpt).opts = List.replicate numOpt none) ∧
    (∀ t : Ty, Bob.is_option (LibA.wrap_into_option t) = true ∧
      Bob.unwrap_from_option (LibA.wrap_into_option t) = some t) ∧
    (∀ f : FieldDef, LibA.is_normal_field f = !Bob.is_option f.ty) ∧
    (∀ (i : Nat) (v : α) (b : LibA.BuilderA α),
      (LibA.setterA i v b).opts = b.opts ∧
      (i < b.slots.length → (LibA.setterA i v b).slots[i]? = some (some v)) ∧
      (∀ j, j ≠ i → (LibA.setterA i v b).slots[j]? = b.slots[j]?)) ∧
    (∀ b : LibA.BuilderA α, none ∈ b.slots → LibA.buildA b = none) ∧
    (∀ (b : LibA.BuilderA α) (vals : List α), LibA.allSome b.slots = some vals →
      LibA.buildA b = some { required := vals, optional := b.opts }) ∧
    (∀ b : LibA.BuilderA α, (∀ x ∈ b.slots, x ≠ none) →
      ∃ vals, LibA.allSome b.slots = some vals) := by
  refine ⟨fun R numOpt => ⟨rfl, rfl⟩, fun t => ⟨rfl, rfl⟩, ?_, ?_, ?_, ?_,
    fun b h => LibA.allSome_eq_some h⟩
  · intro f
    obtain ⟨fid, fattrs, fty⟩ := f
    cases fty with
    | other => rfl
    | path g segs =>
        cases segs with
        | nil => rfl
        | cons shd stl => cases shd; rfl
  · intro i v b
    refine ⟨rfl, ?_, ?_⟩
    · intro hi
      exact List.getElem?_set_self hi
    · intro j hj
      exact List.getElem?_set_ne (Ne.symm hj)
  · intro b h
    simp [LibA.buildA, LibA.allSome_eq_none h]
  · intro b vals h
    simp [LibA.buildA, h]

/-- Witness for `c6_strategy_a_nullable_slots`: finalizing a concrete
builder with an empty required slot panics (`none`), while finalizing one
with all required slots filled yields the record with the slot values and
the optional contents. -/
theorem c6_strategy_a_nullable_slots_witness :
    LibA.buildA (⟨[some 1, none], []⟩ : LibA.BuilderA Nat) = none ∧
    LibA.buildA (⟨[some 2], [none]⟩ : LibA.BuilderA Nat)
      = some { required := [2], optional := [none] } :=
  ⟨(@c6_strategy_a_nullable_slots Nat).2.2.2.2.1 ⟨[some 1, none], []⟩
     (List.Mem.tail _ (List.Mem.head _)),
   (@c6_strategy_a_nullable_slots Nat).2.2.2.2.2.1 ⟨[some 2], [none]⟩ [2] rfl⟩

namespace Bob

/-- Lemma: `collect_most_one` panics (errors) as soon as the list has two or more
elements. -/
theorem collect_most_one_two {T : Type} {l : List T} (msg : String)
    (h : 2 ≤ l.length) : collect_most_one l msg = Except.error msg := by
  match l with
  | [] => simp at h
  | [x] => simp at h
  | a :: b :: t => rfl

/-- A duplicated `builder_names` attribute aborts name resolution. -/
theorem get_builder_names_two {attrs : List Attribute}
    (h : 2 ≤ (builderNamesAttrs attrs).length) :
    get_builder_names attrs
      = Except.error "Only one #[builder_name] attribute supported for struct." := by
  unfold get_builder_names
  rw [collect_most_one_two _ h]
  rfl

/-- A duplicated `builder_prefix` attribute aborts prefix resolution. -/
theorem get_setter_pfx_two {attrs : List Attribute}
    (h : 2 ≤ (builderPrefixAttrs attrs).length) (d : String) :
    get_setter_pfx attrs d
      = Except.error "Only one #[builder_prefix] attribute supported per item." := by
  unfold get_setter_pfx
  rw [collect_most_one_two _ h]
  rfl

/-- A duplicated `builder_validate` attribute aborts validator resolution. -/
theorem get_validator_two {attrs : List Attribute}
    (h : 2 ≤ (builderValidateAttrs attrs).length) (d : String) :
    get_validator attrs d
      = Except.error "Only one #[builder_validate] attribute supported for struct." := by
  unfold get_validator
  rw [collect_most_one_two _ h]
  rfl

end Bob

/-- Claim C8: Supplying more than one naming directive (`builder_names`), more
than one setter-prefix directive on the same item (`builder_prefix`), or more
than one validator directive (`builder_validate`), or applying the derive to
anything other than a struct, aborts generation with a descriptive error
before any output is produced: the run yields `Except.error` and hence no
generated method list at all — never partially-correct output. -/
theorem c8_duplicate_directives_abort :
    (∀ item : DeriveInput, item.body = Body.notStruct →
      create_builder item = Except.error "Only structs supported.") ∧
    (∀ (item : DeriveInput) (flds : List FieldDef),
      item.body = Body.structBody flds →
      2 ≤ (builderNamesAttrs item.attrs).length →
      create_builder item
        = Except.error "Only one #[builder_name] attribute supported for struct.") ∧
    (∀ (item : DeriveInput) (flds : List FieldDef),
      item.body = Body.structBody flds →
      2 ≤ (builderPrefixAttrs item.attrs).length →
      ∃ msg, create_builder item = Except.error msg) ∧
    (∀ (item : DeriveInput) (flds : List FieldDef),
      item.body = Body.structBody flds →
      2 ≤ (builderValidateAttrs item.attrs).length →
      ∃ msg, create_builder item = Except.error msg) := by
  refine ⟨?_, ?_, ?_, ?_⟩
  · intro item h
    unfold create_builder
    rw [h]
  · intro item flds hbody h2
    unfold create_builder
    rw [hbody, get_builder_names_two h2]
    rfl
  · intro item flds hbody h2
    cases hn : get_builder_names item.attrs with
    | error e =>
        refine ⟨e, ?_⟩
        unfold create_builder
        rw [hbody, hn]
        rfl
    | ok names =>
        refine ⟨"Only one #[builder_prefix] attribute supported per item.", ?_⟩
        unfold create_builder
        rw [hbody, hn, get_setter_pfx_two h2]
        rfl
  · intro item flds hbody h2
    cases hc : create_builder item with
    | error msg => exact ⟨msg, rfl⟩
    | ok msl =>
        obtain ⟨names, -, vres, -, -, -, -, hv, -, -, -⟩ :=
          create_builder_ok_parts hbody hc
        rw [get_validator_two h2] at hv
        cases hv

/-- A `builder_validate` attribute naming only a validator. -/
def validateAttrVal (v : String) : Attribute :=
  ⟨MetaItem.list "builder_validate"
    [NestedMetaItem.metaItem (MetaItem.nameValue "validator" (Lit.str v true))]⟩

/-- A `builder_validate` attribute naming only an error type. -/
def validateAttrErr (e : String) : Attribute :=
  ⟨MetaItem.list "builder_validate"
    [NestedMetaItem.metaItem (MetaItem.nameValue "error" (Lit.str e true))]⟩

/-- An (empty) `builder_names` list attribute. -/
def namesListAttr : Attribute := ⟨MetaItem.list "builder_names" []⟩

/-- A `builder_prefix = "set_"` name-value attribute. -/
def prefixNVAttr : Attribute :=
  ⟨MetaItem.nameValue "builder_prefix" (Lit.str "set_" true)⟩

/-- Derive input with a duplicated `builder_names` attribute. -/
def w8names : DeriveInput := ⟨[namesListAttr, namesListAttr], 0, Body.structBody []⟩

/-- Derive input with a duplicated `builder_prefix` attribute. -/
def w8pfx : DeriveInput := ⟨[prefixNVAttr, prefixNVAttr], 0, Body.structBody []⟩

/-- Derive input with a duplicated `builder_validate` attribute. -/
def w8val : DeriveInput :=
  ⟨[validateAttrVal "v", validateAttrVal "v"], 0, Body.structBody []⟩

/-- Derive input whose body is not a struct. -/
def w8enum : DeriveInput := ⟨[], 0, Body.notStruct⟩

/-- Witness for `c8_duplicate_directives_abort`: the four concrete malformed
inputs each make `create_builder` abort with an error. -/
theorem c8_duplicate_directives_abort_witness :
    create_builder w8enum = Except.error "Only structs supported." ∧
    create_builder w8names
      = Except.error "Only one #[builder_name] attribute supported for struct." ∧
    (∃ msg, create_builder w8pfx = Except.error msg) ∧
    (∃ msg, create_builder w8val = Except.error msg) :=
  ⟨c8_duplicate_directives_abort.1 w8enum rfl,
   c8_duplicate_directives_abort.2.1 w8names [] rfl (by decide),
   c8_duplicate_directives_abort.2.2.1 w8pfx [] rfl (by decide),
   c8_duplicate_directives_abort.2.2.2 w8val [] rfl (by decide)⟩

/-- The multi-segment path type `std::option::Option<t>` (`global = false`)
as `syn` parses it: three segments, only the last carrying the parameter. -/
def stdOptionTy (t : Ty) : Ty :=
  Ty.path false
    [PathSeg.mk "std" (PathParams.angleBracketed []),
     PathSeg.mk "option" (PathParams.angleBracketed []),
     PathSeg.mk "Option" (PathParams.angleBracketed [t])]

/-- The fully qualified `::std::option::Option<t>` (`global = true`). -/
def globalStdOptionTy (t : Ty) : Ty :=
  Ty.path true
    [PathSeg.mk "std" (PathParams.angleBracketed []),
     PathSeg.mk "option" (PathParams.angleBracketed []),
     PathSeg.mk "Option" (PathParams.angleBracketed [t])]

/-- Derive input with a single field of type `std::option::Option<t>`. -/
def w9item (t : Ty) : DeriveInput :=
  ⟨[], 0, Body.structBody [⟨some "x", [], stdOptionTy t⟩]⟩

/-- Claim C9 (implicit): Optionality is decided by comparing only the first
segment of the field's type path to the literal identifier `Option`: a field
declared as `std::option::Option<T>` or `::std::option::Option<T>` is
classified required — the generator emits a required setter taking the whole
multi-segment `Option` type, with a marker the finalizer demands `Set` —
while any path whose head segment is named `Option` (in particular any
single-segment `Option<...>`) is classified optional regardless of what it
resolves to. -/
theorem c9_first_segment_decides_optionality :
    (∀ t : Ty, is_option (stdOptionTy t) = false) ∧
    (∀ t : Ty, is_option (globalStdOptionTy t) = false) ∧
    (∀ (g : Bool) (nm : String) (ps : PathParams) (rest : List PathSeg),
      is_option (Ty.path g (PathSeg.mk nm ps :: rest)) = (nm == "Option")) ∧
    (∀ (g : Bool) (ps : PathParams),
      is_option (Ty.path g [PathSeg.mk "Option" ps]) = true) ∧
    (∀ t : Ty, create_builder (w9item t) = Except.ok
      [GenMethod.constructor [MarkerArg.unset],
       GenMethod.dropImpl [MarkerArg.free],
       GenMethod.build [MarkerArg.set] false,
       GenMethod.requiredSetter 0 (stdOptionTy t)
         [MarkerArg.unset] [MarkerArg.set]]) :=
  ⟨fun _ => rfl, fun _ => rfl, fun _ _ _ _ => rfl, fun _ _ => rfl,
   fun _ => rfl⟩

/-- Derive input mirroring `Struct2` of `src/tests/derive.rs`: one required
field and a `builder_validate` directive naming a validator but no error
type. -/
def w10item : DeriveInput :=
  ⟨[validateAttrVal "validate"], 0, Body.structBody [⟨some "a", [], Ty.other⟩]⟩

/-- Claim C10 (implicit): Whether the generated finalizer returns a `Result`
is determined solely by whether the `builder_validate` directive supplies an
error type, not by whether a validator is supplied: a directive naming a
validator but no error makes the finalizer return the plain record type
(`returnsResult = false`); a directive naming an error but no validator
aborts generation with a panic; and in every successful run the emitted
`build` method's result kind equals `isSome` of the error component produced
by `get_validator`. -/
theorem c10_result_iff_error_type :
    (∀ v d : String, get_validator [validateAttrVal v] d = Except.ok (v, none)) ∧
    (∀ e d : String, get_validator [validateAttrErr e] d
      = Except.error "Validator function has to be provided for `builder_validate` attribute.") ∧
    create_builder w10item = Except.ok
      [GenMethod.constructor [MarkerArg.unset],
       GenMethod.dropImpl [MarkerArg.free],
       GenMethod.build [MarkerArg.set] false,
       GenMethod.requiredSetter 0 Ty.other [MarkerArg.unset] [MarkerArg.set]] ∧
    (∀ (item : DeriveInput) (flds : List FieldDef) (msl : List GenMethod),
      item.body = Body.structBody flds →
      create_builder item = Except.ok msl →
      ∀ inp r, GenMethod.build inp r ∈ msl →
        ∃ (names : String × String × String) (vres : String × Option String),
          get_builder_names item.attrs = Except.ok names ∧
          get_validator item.attrs ("_" ++ names.1.toLower ++ "::id")
            = Except.ok vres ∧
          r = vres.2.isSome) := by
  refine ⟨fun v d => rfl, fun e d => rfl, rfl, ?_⟩
  intro item flds msl hbody hok inp r hm
  obtain ⟨names, vres, hn, hv, -, huniq⟩ := create_builder_build_char hbody hok
  exact ⟨names, vres, hn, hv, (huniq inp r hm).2⟩

/-- Witness for `c10_result_iff_error_type`: on the concrete `Struct2`-style
input (validator, no error type) the emitted finalizer's result kind is
`false` (plain record), witnessed through the general result-kind conjunct
applied to the emitted `build` method. -/
theorem c10_result_iff_error_type_witness :
    ∃ (names : String × String × String) (vres : String × Option String),
      get_builder_names w10item.attrs = Except.ok names ∧
      get_validator w10item.attrs ("_" ++ names.1.toLower ++ "::id")
        = Except.ok vres ∧
      false = vres.2.isSome :=
  c10_result_iff_error_type.2.2.2 w10item [⟨some "a", [], Ty.other⟩] _ rfl
    c10_result_iff_error_type.2.2.1 [MarkerArg.set] false
    (List.Mem.tail _ (List.Mem.tail _ (List.Mem.head _)))

/-- Claim C1: For every required field `i`, the generated setter for `i` is
defined only on builder types whose `i`-th marker argument is `O` (`Unset`),
with every other marker and every struct type parameter left free, and it
returns the builder type identical except that marker `i` is `I` (`Set`);
the generator emits no operation performing any other marker transition, so
along any type-correct call sequence starting from the constructor's
all-unset state the setter for `i` fires at most once — setting a required
field twice is not expressible. -/
theorem c1_required_setter_single_flip {item : DeriveInput}
    {flds : List FieldDef} {msl : List GenMethod}
    (hbody : item.body = Body.structBody flds)
    (hok : create_builder item = Except.ok msl) :
    (∀ i aty inp out, GenMethod.requiredSetter i aty inp out ∈ msl →
      inp = builderArgs item.tyParamCount
        ((List.replicate (reqCount flds) MarkerArg.free).set i MarkerArg.unset) ∧
      out = builderArgs item.tyParamCount
        ((List.replicate (reqCount flds) MarkerArg.free).set i MarkerArg.set)) ∧
    (∀ i, i < reqCount flds → ∃ f,
      (flds.filter fun g => !is_option g.ty)[i]? = some f ∧
      GenMethod.requiredSetter i f.ty
        (builderArgs item.tyParamCount
          ((List.replicate (reqCount flds) MarkerArg.free).set i MarkerArg.unset))
        (builderArgs item.tyParamCount
          ((List.replicate (reqCount flds) MarkerArg.free).set i MarkerArg.set)) ∈ msl) ∧
    (∀ (path : List GenMethod) (u : List Bool),
      Trace msl (List.replicate (reqCount flds + item.tyParamCount) false) path u →
      ∀ i, path.countP (isReqSetterFor i) ≤ 1) := by
  refine ⟨?_, ?_, ?_⟩
  · intro i aty inp out hm
    have h := create_builder_shapes hbody hok _ hm
    exact ⟨h.2.1, h.2.2⟩
  · intro i hi
    exact create_builder_reqSetter_mem hbody hok hi
  · intro path u ht i
    exact (trace_countP (create_builder_shapes hbody hok) i ht).2

/-- Fields of the two-field witness struct: a required field of an opaque
type and an optional `Option<...>` field. -/
def w1flds : List FieldDef :=
  [⟨some "a", [], Ty.other⟩, ⟨some "b", [], LibA.wrap_into_option Ty.other⟩]

/-- Derive input for the two-field witness struct (no attributes, no type
parameters). -/
def w1item : DeriveInput := ⟨[], 0, Body.structBody w1flds⟩

/-- The method list `create_builder` emits for `w1item`. -/
def w1msl : List GenMethod :=
  [GenMethod.constructor [MarkerArg.unset],
   GenMethod.dropImpl [MarkerArg.free],
   GenMethod.build [MarkerArg.set] false,
   GenMethod.optionalSetter 0 Ty.other [MarkerArg.free] [MarkerArg.free],
   GenMethod.requiredSetter 0 Ty.other [MarkerArg.unset] [MarkerArg.set]]

/-- Witness for `c1_required_setter_single_flip`: on the concrete two-field
struct the required setter for marker `0` is emitted with the `O → I`
transition at position `0`. -/
theorem c1_required_setter_single_flip_witness :
    0 < reqCount w1flds ∧
    (∃ f, (w1flds.filter fun g => !is_option g.ty)[0]? = some f ∧
      GenMethod.requiredSetter 0 f.ty
        (builderArgs w1item.tyParamCount
          ((List.replicate (reqCount w1flds) MarkerArg.free).set 0 MarkerArg.unset))
        (builderArgs w1item.tyParamCount
          ((List.replicate (reqCount w1flds) MarkerArg.free).set 0 MarkerArg.set)) ∈ w1msl) :=
  ⟨by decide,
   (@c1_required_setter_single_flip w1item w1flds w1msl rfl rfl).2.1 0 (by decide)⟩

/-- Claim C2: For every input struct the generated constructor is defined on
and returns the builder type whose marker arguments are all `O` (`Unset`),
and the generated finalizer is defined only on the builder type whose marker
arguments are all `I` (`Set`); when the struct has no required fields the
builder has no marker arguments at all and the finalizer's self type matches
the freshly constructed builder's state immediately. -/
theorem c2_constructor_unset_finalizer_set {item : DeriveInput}
    {flds : List FieldDef} {msl : List GenMethod}
    (hbody : item.body = Body.structBody flds)
    (hok : create_builder item = Except.ok msl) :
    GenMethod.constructor (builderArgs item.tyParamCount
      (List.replicate (reqCount flds) MarkerArg.unset)) ∈ msl ∧
    (∀ out, GenMethod.constructor out ∈ msl →
      out = builderArgs item.tyParamCount
        (List.replicate (reqCount flds) MarkerArg.unset)) ∧
    (∃ e, GenMethod.build (builderArgs item.tyParamCount
      (List.replicate (reqCount flds) MarkerArg.set)) e ∈ msl) ∧
    (∀ inp r, GenMethod.build inp r ∈ msl →
      inp = builderArgs item.tyParamCount
        (List.replicate (reqCount flds) MarkerArg.set)) ∧
    (reqCount flds = 0 → ∀ inp r, GenMethod.build inp r ∈ msl →
      matchesB inp
        (List.replicate (reqCount flds + item.tyParamCount) false) = true) := by
  obtain ⟨hcmem, hcuni⟩ := create_builder_constructor_char hbody hok
  obtain ⟨names, vres, -, -, hbmem, hbuni⟩ := create_builder_build_char hbody hok
  refine ⟨hcmem, hcuni, ⟨vres.2.isSome, hbmem⟩, fun inp r hm => (hbuni inp r hm).1, ?_⟩
  intro h0 inp r hm
  rw [(hbuni inp r hm).1, h0]
  exact matchesB_replicate_free (by simp [h0])
/-- Fields of the witness struct with no required field. -/
def w2flds : List FieldDef := [⟨some "c", [], LibA.wrap_into_option Ty.other⟩]

/-- Derive input for the no-required-fields witness struct. -/
def w2item : DeriveInput := ⟨[], 0, Body.structBody w2flds⟩

/-- The method list `create_builder` emits for `w2item`. -/
def w2msl : List GenMethod :=
  [GenMethod.constructor [],
   GenMethod.dropImpl [],
   GenMethod.build [] false,
   GenMethod.optionalSetter 0 Ty.other [] []]

/-- Witness for `c2_constructor_unset_finalizer_set`: with no required
fields the emitted finalizer exists on the empty marker vector and is
applicable to the freshly constructed builder's state. -/
theorem c2_constructor_unset_finalizer_set_witness :
    (∃ e, GenMethod.build (builderArgs w2item.tyParamCount
      (List.replicate (reqCount w2flds) MarkerArg.set)) e ∈ w2msl) ∧
    matchesB []
      (List.replicate (reqCount w2flds + w2item.tyParamCount) false) = true :=
  ⟨(@c2_constructor_unset_finalizer_set w2item w2flds w2msl rfl rfl).2.2.1,
   (@c2_constructor_unset_finalizer_set w2item w2flds w2msl rfl rfl).2.2.2.2
     (by decide) [] false
     (List.Mem.tail _ (List.Mem.tail _ (List.Mem.head _)))⟩

/-- Claim C5: A field whose declared type is wrapped in `Option` is classified
optional: the generator emits for it a setter taking the unwrapped inner
type, available on every builder state (all marker arguments free) and
returning the same builder type it consumed; every field not so wrapped is
classified required and gets a marker-transition setter taking its declared
type. -/
theorem c5_optional_setters_any_state {item : DeriveInput}
    {flds : List FieldDef} {msl : List GenMethod}
    (hbody : item.body = Body.structBody flds)
    (hok : create_builder item = Except.ok msl) :
    (∀ f ∈ flds, is_option f.ty = true → ∃ pos aty,
      unwrap_from_option f.ty = some aty ∧
      GenMethod.optionalSetter pos aty
        (builderArgs item.tyParamCount
          (List.replicate (reqCount flds) MarkerArg.free))
        (builderArgs item.tyParamCount
          (List.replicate (reqCount flds) MarkerArg.free)) ∈ msl) ∧
    (∀ f ∈ flds, is_option f.ty = false → ∃ pos,
      GenMethod.requiredSetter pos f.ty
        (builderArgs item.tyParamCount
          ((List.replicate (reqCount flds) MarkerArg.free).set pos MarkerArg.unset))
        (builderArgs item.tyParamCount
          ((List.replicate (reqCount flds) MarkerArg.free).set pos MarkerArg.set)) ∈ msl) ∧
    (∀ pos aty inp out, GenMethod.optionalSetter pos aty inp out ∈ msl →
      inp = builderArgs item.tyParamCount
        (List.replicate (reqCount flds) MarkerArg.free) ∧ out = inp) := by
  refine ⟨?_, ?_, ?_⟩
  · intro f hf hfo
    exact create_builder_optSetter_mem hbody hok hf hfo
  · intro f hf hfo
    exact create_builder_field_reqSetter_mem hbody hok hf hfo
  · intro pos aty inp out hm
    have h := create_builder_shapes hbody hok _ hm
    exact ⟨h.1, h.2⟩

/-- Witness for `c5_optional_setters_any_state`: the concrete optional field
of the two-field witness struct gets a setter taking the unwrapped inner
type on the fully free builder type. -/
theorem c5_optional_setters_any_state_witness :
    ∃ pos aty,
      unwrap_from_option (LibA.wrap_into_option Ty.other) = some aty ∧
      GenMethod.optionalSetter pos aty
        (builderArgs w1item.tyParamCount
          (List.replicate (reqCount w1flds) MarkerArg.free))
        (builderArgs w1item.tyParamCount
          (List.replicate (reqCount w1flds) MarkerArg.free)) ∈ w1msl :=
  (@c5_optional_setters_any_state w1item w1flds w1msl rfl rfl).1
    ⟨some "b", [], LibA.wrap_into_option Ty.other⟩
    (List.Mem.tail _ (List.Mem.head _)) rfl
